import Mathlib

/-!
Verification of the DeCleanup submission-lifecycle and reward-ledger core.

The repository snapshot contains the TypeScript client wrapper
(`frontend/src/lib/blockchain/contracts.ts`), pure frontend utilities
(`frontend/src/lib/utils/impact-product.ts`, the IPFS upload helpers) and
deployment scripts.  The Solidity contracts themselves (Submission,
DCURewardManager, RecyclablesReward) are not part of the snapshot, so the
on-chain state machine is modelled from the specification; definitions whose
doc comment starts with `Modelled from the spec:` are of that kind.  All
other definitions are shallow embeddings of the TypeScript source.
-/

namespace DeCleanup

/-! ## Leveling utilities (source: frontend/src/lib/utils/impact-product.ts) -/

/-- The four level names, source type `LevelName`. -/
inductive LevelName where
  | Newbie
  | Pro
  | Hero
  | Guardian
deriving DecidableEq, Repr

/-- Embedding of `getLevelName` (impact-product.ts lines 11-17).
JavaScript numbers are embedded as `Int`; every guard is an exact
translation of the source condition, with the final `return 'Newbie'`
as the fallback branch. -/
def getLevelName (level : Int) : LevelName :=
  if 1 ≤ level ∧ level ≤ 3 then .Newbie
  else if 4 ≤ level ∧ level ≤ 6 then .Pro
  else if 7 ≤ level ∧ level ≤ 9 then .Hero
  else if 10 ≤ level then .Guardian
  else .Newbie

/-- Embedding of `getImpactValueRange` (impact-product.ts lines 22-28). -/
def getImpactValueRange (level : Int) : String :=
  if 1 ≤ level ∧ level ≤ 3 then "1-3"
  else if 4 ≤ level ∧ level ≤ 6 then "4-6"
  else if 7 ≤ level ∧ level ≤ 9 then "7-9"
  else if 10 ≤ level then "10+"
  else "0"

/-- Modelled from the spec: the tier component of the leveling rule
(§4.4: tier equals the approved-submission count, clamped to the
inclusive range [1,10]; counts of 10 or more give tier 10).  The
contract-side leveling code is not in the repository snapshot. -/
def levelTier (approvedCount : Nat) : Nat :=
  min approvedCount 10

/-! ## Impact-product IPFS upload helpers (source: the unnamed module
`impact-product-ipfs`, functions `uploadImpactProductImage`,
`uploadAllImpactProductImages`, `batchUploadImpactProducts`).
The actual IPFS transfer is an external collaborator; a successful
validation is represented by `.ok` carrying the file(s) handed to the
uploader, an exception by `.error` with the source's message, thrown
before any upload is attempted. -/

/-- A file as far as the upload validation inspects it: its MIME type. -/
structure UFile where
  mime : String
deriving DecidableEq, Repr

/-- The `validTypes` array of `uploadImpactProductImage`. -/
def validImageTypes : List String := ["image/png", "image/gif"]

/-- Embedding of `uploadImpactProductImage(file, level)`: validates the
level range, then the MIME type, then uploads; both throws happen before
the `uploadToIPFS` call. -/
def uploadImpactProductImage (file : UFile) (level : Int) : Except String UFile :=
  if level < 1 ∨ 10 < level then
    .error "Level must be between 1 and 10"
  else if ¬ validImageTypes.contains file.mime then
    .error "File must be PNG or GIF"
  else
    .ok file

/-- Embedding of `uploadAllImpactProductImages(images)`: each file at
index `i` is uploaded with level `i + 1`, files past level 10 are
skipped, and a single failed upload rejects the whole batch
(`Promise.all`). -/
def uploadAllImpactProductImages (images : List UFile) : Except String (List UFile) :=
  (images.enum.filter (fun p => p.1 + 1 ≤ 10)).mapM
    (fun p => uploadImpactProductImage p.2 (p.1 + 1))

/-- Embedding of `batchUploadImpactProducts(images, animation?)`: the
length guard throws before anything is uploaded; then all ten images are
uploaded, then the optional level-10 animation; the per-level metadata
upload that follows is an external collaborator (`uploadJSONToIPFS`) and
performs no further validation of the inputs. -/
def batchUploadImpactProducts (images : List UFile) (animation : Option UFile) :
    Except String (List UFile) :=
  if images.length ≠ 10 then
    .error "Must provide exactly 10 image files (one for each level)"
  else
    match uploadAllImpactProductImages images with
    | .error e => .error e
    | .ok imgs =>
      match animation with
      | some a =>
        match uploadImpactProductImage a 10 with
        | .error e => .error e
        | .ok _ => .ok imgs
      | none => .ok imgs

/-! ## Core state model.

Modelled from the spec (§3-§5): the Solidity contracts holding the
submission records, the reward ledger and the recyclables reserve are not
in the repository snapshot; only their TypeScript callers are.  Accounts
are identified by `Nat`. -/

/-- Submission status (§3): Pending initial, Approved / Rejected terminal. -/
inductive Status where
  | Pending
  | Approved
  | Rejected
deriving DecidableEq, Repr

/-- Roles (§3 RoleAssignment). -/
inductive Role where
  | DefaultAdmin
  | Admin
  | Verifier
deriving DecidableEq, Repr

/-- Error taxonomy (§7).  `NothingToClaim` is a soft no-op signal;
`ReserveExhausted` is reported as a soft flag on a successful approval,
not through this type. -/
inductive Err where
  | NotFound
  | InvalidState
  | Unauthorized
  | InvalidEvidence
  | FeeRequired
  | NothingToClaim
deriving DecidableEq, Repr

/-- Modelled from the spec: a per-account ledger entry, one additive
counter per reward category (§3 RewardLedger entry). -/
structure LedgerEntry where
  baseImpact : Nat
  streak : Nat
  referral : Nat
  impactReport : Nat
  verifierIncentive : Nat
  recyclables : Nat
deriving DecidableEq, Repr

/-- The all-zero ledger entry. -/
def emptyEntry : LedgerEntry :=
  { baseImpact := 0, streak := 0, referral := 0, impactReport := 0,
    verifierIncentive := 0, recyclables := 0 }

/-- Sum of a ledger entry across all categories. -/
def ledgerTotal (e : LedgerEntry) : Nat :=
  e.baseImpact + e.streak + e.referral + e.impactReport +
    e.verifierIncentive + e.recyclables

/-- Modelled from the spec: a Submission record (§3). -/
structure Submission where
  id : Nat
  submitter : Nat
  beforeEvidenceRef : String
  afterEvidenceRef : String
  recyclablesEvidenceRef : Option String
  recyclablesReceiptRef : Option String
  impactReportRef : String
  latitude : Int
  longitude : Int
  createdAt : Nat
  referrer : Option Nat
  status : Status
  rewarded : Bool
  hasRecyclables : Bool
deriving DecidableEq, Repr

/-- Modelled from the spec: the shared ledger state (§3, §5).  The
submission with id `i` sits at index `i` of `submissions`, so the
monotonic counter is `submissions.length`. -/
structure LedgerState where
  submissions : List Submission
  ledger : Nat → LedgerEntry
  roles : Role → Nat → Bool
  capacity : Nat
  distributed : Nat
  unitReward : Nat
  feeEnabled : Bool
  feeAmount : Nat

/-- The strictly monotonic submission counter (§3), also the contract
read `submissionCount` used by the client wrapper. -/
def submissionCount (s : LedgerState) : Nat :=
  s.submissions.length

/-- Read a submission by id. -/
def getSub (s : LedgerState) (id : Nat) : Option Submission :=
  s.submissions[id]?

/-- §4.1: approve/reject require the ADMIN or VERIFIER role. -/
def canVerify (s : LedgerState) (actor : Nat) : Bool :=
  s.roles .Admin actor || s.roles .Verifier actor

/-- Apply `f` to one account's ledger entry, leaving every other account
untouched. -/
def creditLedger (s : LedgerState) (acct : Nat) (f : LedgerEntry → LedgerEntry) :
    LedgerState :=
  { s with ledger := fun a => if a = acct then f (s.ledger a) else s.ledger a }

/-- Modelled from the spec: the fixed base-impact reward amount (§4.2
"a fixed base amount"; the deployment scripts use 10 DCU). -/
def baseReward : Nat := 10

/-- Modelled from the spec: the fixed impact-report bonus (§4.2). -/
def impactReportBonus : Nat := 3

/-- Modelled from the spec: the fixed referral amount (§4.2). -/
def referralReward : Nat := 3

/-- Modelled from the spec: the per-account ledger effect of one
approval's accrual (§4.2) — base-impact to the submitter, the
impact-report bonus when an impact report was attached, and the referral
amount to the referrer's entry, not the submitter's. -/
def approvalDelta (sub : Submission) (a : Nat) (e : LedgerEntry) : LedgerEntry :=
  let e1 :=
    if a = sub.submitter then { e with baseImpact := e.baseImpact + baseReward }
    else e
  let e2 :=
    if a = sub.submitter ∧ sub.impactReportRef ≠ "" then
      { e1 with impactReport := e1.impactReport + impactReportBonus }
    else e1
  if sub.referrer = some a then
    { e2 with referral := e2.referral + referralReward }
  else e2

/-- Modelled from the spec: `creditOnApproval(submission)` (§4.2) —
idempotent with respect to `submission.rewarded` (if already true, a
no-op); otherwise applies `approvalDelta` to every account's entry.
(`rewarded := true` is recorded on the submission by `approve`.) -/
def creditOnApproval (s : LedgerState) (sub : Submission) : LedgerState :=
  if sub.rewarded then s
  else { s with ledger := fun a => approvalDelta sub a (s.ledger a) }

/-- Modelled from the spec: `payoutIfEligible(submission)` (§4.3) — when
the submission carries recyclables, pay `unitReward` from the reserve if
`remaining >= unitReward`, else report exhaustion (the `Bool`) without
failing.  The check and the increment are one atomic step. -/
def payoutIfEligible (s : LedgerState) (sub : Submission) : Bool × LedgerState :=
  if sub.hasRecyclables then
    if s.unitReward ≤ s.capacity - s.distributed then
      (false,
        creditLedger { s with distributed := s.distributed + s.unitReward }
          sub.submitter
          (fun e => { e with recyclables := e.recyclables + s.unitReward }))
    else (true, s)
  else (false, s)

/-- The inputs of one `create` call (§4.1). -/
structure CreateInput where
  submitter : Nat
  beforeRef : String
  afterRef : String
  impactReportRef : String
  latitude : Int
  longitude : Int
  createdAt : Nat
  referrer : Option Nat
  feeSupplied : Bool
deriving DecidableEq, Repr

/-- The Pending record stored by `create` (§3). -/
def mkSub (id : Nat) (inp : CreateInput) : Submission :=
  { id := id, submitter := inp.submitter,
    beforeEvidenceRef := inp.beforeRef,
    afterEvidenceRef := inp.afterRef,
    recyclablesEvidenceRef := none, recyclablesReceiptRef := none,
    impactReportRef := inp.impactReportRef,
    latitude := inp.latitude, longitude := inp.longitude,
    createdAt := inp.createdAt, referrer := inp.referrer,
    status := .Pending, rewarded := false,
    hasRecyclables := false }

/-- Modelled from the spec: `create` (§4.1) — rejects empty required
evidence (`InvalidEvidence`) and an enabled-but-unpaid creation fee
(`FeeRequired`); otherwise allocates the next counter value, stores a
Pending record and returns the id. -/
def create (s : LedgerState) (inp : CreateInput) : Except Err (Nat × LedgerState) :=
  if inp.beforeRef = "" ∨ inp.afterRef = "" then .error .InvalidEvidence
  else if s.feeEnabled ∧ ¬ inp.feeSupplied then .error .FeeRequired
  else
    let id := submissionCount s
    .ok (id, { s with submissions := s.submissions ++ [mkSub id inp] })

/-- A submission with recyclables evidence attached. -/
def withRecyclables (sub : Submission) (p r : String) : Submission :=
  { sub with recyclablesEvidenceRef := some p,
             recyclablesReceiptRef := some r,
             hasRecyclables := true }

/-- A submission finalized as Approved, its base reward recorded. -/
def approvedSub (sub : Submission) : Submission :=
  { sub with status := Status.Approved, rewarded := true }

/-- A submission finalized as Rejected. -/
def rejectedSub (sub : Submission) : Submission :=
  { sub with status := Status.Rejected }

/-- Modelled from the spec: `attachRecyclables(id, photoRef, receiptRef)`
(§4.1) — only while Pending, `NotFound` for an unknown id. -/
def attachRecyclables (s : LedgerState) (id : Nat)
    (photoRef receiptRef : String) : Except Err LedgerState :=
  match getSub s id with
  | none => .error .NotFound
  | some sub =>
    if sub.status ≠ .Pending then .error .InvalidState
    else .ok { s with submissions :=
      s.submissions.set id (withRecyclables sub photoRef receiptRef) }

/-- Modelled from the spec: `approve(id, actor)` (§4.1) — authorization,
then the Pending precondition (`InvalidState`, non-retryable), then
status `Approved`, reward accrual and reserve payout as one atomic
transaction.  The returned `Bool` is the soft ReserveExhausted signal. -/
def approve (s : LedgerState) (id actor : Nat) : Except Err (Bool × LedgerState) :=
  if ¬ canVerify s actor then .error .Unauthorized
  else
    match getSub s id with
    | none => .error .NotFound
    | some sub =>
      if sub.status ≠ .Pending then .error .InvalidState
      else
        let s1 := creditOnApproval s sub
        let p := payoutIfEligible s1 sub
        .ok (p.1, { p.2 with submissions :=
          p.2.submissions.set id (approvedSub sub) })

/-- Modelled from the spec: `reject(id, actor)` (§4.1) — same guards as
`approve`, sets Rejected, no reward side effects. -/
def reject (s : LedgerState) (id actor : Nat) : Except Err LedgerState :=
  if ¬ canVerify s actor then .error .Unauthorized
  else
    match getSub s id with
    | none => .error .NotFound
    | some sub =>
      if sub.status ≠ .Pending then .error .InvalidState
      else .ok { s with submissions := s.submissions.set id (rejectedSub sub) }

/-- Modelled from the spec: `claim(account)` (§4.2) — reads the sum
across all categories, zeroes every category atomically, returns the
amount; `NothingToClaim` on a zero balance. -/
def claimRewards (s : LedgerState) (acct : Nat) : Except Err (Nat × LedgerState) :=
  let total := ledgerTotal (s.ledger acct)
  if total = 0 then .error .NothingToClaim
  else .ok (total,
    { s with ledger := fun a => if a = acct then emptyEntry else s.ledger a })

/-- Modelled from the spec: `syncReserve(newCapacity)` (§4.3) —
privileged, and never decreases `capacity` below the current
`distributed`. -/
def syncReserve (s : LedgerState) (newCapacity : Nat) (actor : Nat) :
    Except Err LedgerState :=
  if ¬ s.roles .DefaultAdmin actor then .error .Unauthorized
  else .ok { s with capacity := max newCapacity s.distributed }

/-- One committed transaction of the core (§5): the successful
application of any mutating operation. -/
inductive Step : LedgerState → LedgerState → Prop where
  | createS {s s' : LedgerState} {inp : CreateInput} {id : Nat}
      (h : create s inp = .ok (id, s')) : Step s s'
  | attachS {s s' : LedgerState} {id : Nat} {p r : String}
      (h : attachRecyclables s id p r = .ok s') : Step s s'
  | approveS {s s' : LedgerState} {id actor : Nat} {b : Bool}
      (h : approve s id actor = .ok (b, s')) : Step s s'
  | rejectS {s s' : LedgerState} {id actor : Nat}
      (h : reject s id actor = .ok s') : Step s s'
  | claimS {s s' : LedgerState} {acct amt : Nat}
      (h : claimRewards s acct = .ok (amt, s')) : Step s s'
  | syncS {s s' : LedgerState} {cap actor : Nat}
      (h : syncReserve s cap actor = .ok s') : Step s s'

/-- Modelled from the spec: a fresh deployment — no submissions, empty
ledger, reserve of the given capacity with nothing distributed, one
account holding the VERIFIER role, creation fee disabled. -/
def mkInit (cap unit verifier : Nat) : LedgerState :=
  { submissions := [],
    ledger := fun _ => emptyEntry,
    roles := fun r a => decide (r = .Verifier ∧ a = verifier),
    capacity := cap,
    distributed := 0,
    unitReward := unit,
    feeEnabled := false,
    feeAmount := 0 }

/-! ## Client wrapper embeddings (source:
frontend/src/lib/blockchain/contracts.ts). -/

/-- Embedding of the fee handling of `submitCleanup` (contracts.ts lines
200-205): a payment value is attached to the `createSubmission` call only
when `_fee` is provided and strictly positive. -/
def submitCleanupValue (fee : Option Nat) : Option Nat :=
  match fee with
  | some f => if 0 < f then some f else none
  | none => none

/-- Embedding of `submitCleanup` (contracts.ts lines 176-224): reads
`submissionCount` before the transaction, issues `createSubmission`
(attaching a payment only per `submitCleanupValue`), and returns the
pre-transaction count as the new submission's id. -/
def submitCleanup (s : LedgerState) (inp : CreateInput) (fee : Option Nat) :
    Except Err (Nat × LedgerState) :=
  let submissionCountBefore := submissionCount s
  match create s { inp with feeSupplied := (submitCleanupValue fee).isSome } with
  | .ok (_, s') => .ok (submissionCountBefore, s')
  | .error e => .error e

/-- Embedding of `getSubmissionFee` (contracts.ts lines 297-305): the
submission fee surface reports amount 0, disabled. -/
def getSubmissionFee : Nat × Bool := (0, false)

/-- Embedding of `getUserLevel` (contracts.ts lines 417-419): an MVP
stub returning 0 for every address. -/
def getUserLevel (_address : Nat) : Nat := 0

/-- Embedding of `getClaimableRewards` (contracts.ts lines 403-407): an
MVP stub returning 0 for every address. -/
def getClaimableRewards (_address : Nat) : Nat := 0

/-- Embedding of the `level` field computed by `getCleanupDetails`
(contracts.ts line 271): 1 when the submission's status is Approved,
otherwise 0. -/
def cleanupDetailsLevel (status : Status) : Nat :=
  if status = .Approved then 1 else 0

/-- Modelled from the spec: the count of Approved submissions owned by a
user (§4.4), the input of the leveling rule. -/
def approvedCount (s : LedgerState) (acct : Nat) : Nat :=
  (s.submissions.filter
    (fun sub => decide (sub.submitter = acct ∧ sub.status = .Approved))).length

/-! ## Run helpers for the sequence-of-calls claims. -/

/-- Run a sequence of `create` calls, collecting the ids of the
successful ones (a failed `create` leaves the state unchanged). -/
def createRun (s : LedgerState) : List CreateInput → List Nat × LedgerState
  | [] => ([], s)
  | inp :: rest =>
    match create s inp with
    | .ok (id, s') =>
      let p := createRun s' rest
      (id :: p.1, p.2)
    | .error _ => createRun s rest

/-- A valid creation input for the recyclables scenario. -/
def eligibleInput (submitter : Nat) : CreateInput :=
  { submitter := submitter, beforeRef := "before", afterRef := "after",
    impactReportRef := "", latitude := 0, longitude := 0, createdAt := 0,
    referrer := none, feeSupplied := false }

/-- One eligible approval (§8 reserve scenario): create a submission for
account 1, attach recyclables, approve it with the given verifier. -/
def approveCycle (v : Nat) (s : LedgerState) : LedgerState :=
  match create s (eligibleInput 1) with
  | .ok (id, s1) =>
    match attachRecyclables s1 id "photo" "receipt" with
    | .ok s2 =>
      match approve s2 id v with
      | .ok (_, s3) => s3
      | .error _ => s2
    | .error _ => s1
  | .error _ => s

/-- `k` eligible approvals in sequence. -/
def runCycles (v : Nat) (s : LedgerState) : Nat → LedgerState
  | 0 => s
  | k + 1 => approveCycle v (runCycles v s k)

/-! ## Concrete states used by witnesses and counterexamples. -/

/-- A pending submission by account 1 with an attached impact report. -/
def demoSub : Submission :=
  { id := 0, submitter := 1, beforeEvidenceRef := "before",
    afterEvidenceRef := "after", recyclablesEvidenceRef := none,
    recyclablesReceiptRef := none, impactReportRef := "report",
    latitude := 0, longitude := 0, createdAt := 0, referrer := none,
    status := .Pending, rewarded := false, hasRecyclables := false }

/-- A small state: one pending submission, account 9 is a verifier. -/
def demoState : LedgerState :=
  { mkInit 5000 5 9 with submissions := [demoSub] }

/-- The state after account 9 approves submission 0 of `demoState`. -/
def demoApproved : LedgerState :=
  match approve demoState 0 9 with
  | .ok (_, s') => s'
  | .error _ => demoState

/-- A state in which account 1 owns three approved submissions. -/
def threeApprovedState : LedgerState :=
  { mkInit 5000 5 9 with submissions :=
      [{ demoSub with id := 0, status := .Approved, rewarded := true },
       { demoSub with id := 1, status := .Approved, rewarded := true },
       { demoSub with id := 2, status := .Approved, rewarded := true }] }

/-- A pending submission by account 1 carrying recyclables. -/
def demoRecySub : Submission :=
  { demoSub with impactReportRef := "",
                 recyclablesEvidenceRef := some "photo",
                 recyclablesReceiptRef := some "receipt",
                 hasRecyclables := true }

/-- A state whose recyclables reserve is exhausted while an eligible
submission is still Pending. -/
def exhaustedState : LedgerState :=
  { mkInit 5000 5 9 with submissions := [demoRecySub], distributed := 5000 }

/-- The state reached from `demoState` by a second successful create. -/
def demoCreated : LedgerState :=
  match create demoState (eligibleInput 2) with
  | .ok (_, t) => t
  | .error _ => demoState

/-- A small batch of creation inputs. -/
def demoInputs : List CreateInput :=
  [eligibleInput 1, eligibleInput 2, eligibleInput 3]

/-- The state produced by a successful `create`. -/
def createdState (s : LedgerState) (inp : CreateInput) : LedgerState :=
  { s with submissions := s.submissions ++ [mkSub (submissionCount s) inp] }

/-- The state produced by a successful `attachRecyclables`. -/
def attachedState (s : LedgerState) (id : Nat) (sub : Submission)
    (p r : String) : LedgerState :=
  { s with submissions := s.submissions.set id (withRecyclables sub p r) }

/-! ## Helper lemmas: which fields each internal operation touches. -/

theorem creditLedger_submissions (s : LedgerState) (acct : Nat)
    (f : LedgerEntry → LedgerEntry) :
    (creditLedger s acct f).submissions = s.submissions := rfl

theorem creditLedger_ledger (s : LedgerState) (acct : Nat)
    (f : LedgerEntry → LedgerEntry) (a : Nat) :
    (creditLedger s acct f).ledger a
      = if a = acct then f (s.ledger a) else s.ledger a := rfl

theorem creditOnApproval_submissions (s : LedgerState) (sub : Submission) :
    (creditOnApproval s sub).submissions = s.submissions := by
  unfold creditOnApproval
  split <;> rfl

theorem creditOnApproval_roles (s : LedgerState) (sub : Submission) :
    (creditOnApproval s sub).roles = s.roles := by
  unfold creditOnApproval
  split <;> rfl

theorem creditOnApproval_capacity (s : LedgerState) (sub : Submission) :
    (creditOnApproval s sub).capacity = s.capacity := by
  unfold creditOnApproval
  split <;> rfl

theorem creditOnApproval_distributed (s : LedgerState) (sub : Submission) :
    (creditOnApproval s sub).distributed = s.distributed := by
  unfold creditOnApproval
  split <;> rfl

theorem creditOnApproval_unitReward (s : LedgerState) (sub : Submission) :
    (creditOnApproval s sub).unitReward = s.unitReward := by
  unfold creditOnApproval
  split <;> rfl

theorem creditOnApproval_feeEnabled (s : LedgerState) (sub : Submission) :
    (creditOnApproval s sub).feeEnabled = s.feeEnabled := by
  unfold creditOnApproval
  split <;> rfl

theorem creditOnApproval_baseImpact (s : LedgerState) (sub : Submission)
    (a : Nat) (h : sub.rewarded = false) :
    ((creditOnApproval s sub).ledger a).baseImpact
      = (s.ledger a).baseImpact + (if a = sub.submitter then baseReward else 0) := by
  unfold creditOnApproval approvalDelta
  by_cases h1 : a = sub.submitter <;>
    by_cases h2 : sub.impactReportRef = "" <;>
      simp [h, h1, h2, apply_ite LedgerEntry.baseImpact]

theorem creditOnApproval_recyclables (s : LedgerState) (sub : Submission)
    (a : Nat) :
    ((creditOnApproval s sub).ledger a).recyclables
      = (s.ledger a).recyclables := by
  unfold creditOnApproval approvalDelta
  by_cases h0 : sub.rewarded <;>
    by_cases h1 : a = sub.submitter <;>
      by_cases h2 : sub.impactReportRef = "" <;>
        simp [h0, h1, h2, apply_ite LedgerEntry.recyclables]

theorem payoutIfEligible_submissions (s : LedgerState) (sub : Submission) :
    (payoutIfEligible s sub).2.submissions = s.submissions := by
  unfold payoutIfEligible
  split
  · split <;> rfl
  · rfl

theorem payoutIfEligible_roles (s : LedgerState) (sub : Submission) :
    (payoutIfEligible s sub).2.roles = s.roles := by
  unfold payoutIfEligible
  split
  · split <;> rfl
  · rfl

theorem payoutIfEligible_capacity (s : LedgerState) (sub : Submission) :
    (payoutIfEligible s sub).2.capacity = s.capacity := by
  unfold payoutIfEligible
  split
  · split <;> rfl
  · rfl

theorem payoutIfEligible_unitReward (s : LedgerState) (sub : Submission) :
    (payoutIfEligible s sub).2.unitReward = s.unitReward := by
  unfold payoutIfEligible
  split
  · split <;> rfl
  · rfl

theorem payoutIfEligible_feeEnabled (s : LedgerState) (sub : Submission) :
    (payoutIfEligible s sub).2.feeEnabled = s.feeEnabled := by
  unfold payoutIfEligible
  split
  · split <;> rfl
  · rfl

theorem payoutIfEligible_baseImpact (s : LedgerState) (sub : Submission)
    (a : Nat) :
    ((payoutIfEligible s sub).2.ledger a).baseImpact
      = (s.ledger a).baseImpact := by
  unfold payoutIfEligible
  split
  · split
    · simp only [creditLedger_ledger]
      split <;> rfl
    · rfl
  · rfl

theorem payoutIfEligible_distributed (s : LedgerState) (sub : Submission) :
    (payoutIfEligible s sub).2.distributed
      = if sub.hasRecyclables = true ∧ s.unitReward ≤ s.capacity - s.distributed
        then s.distributed + s.unitReward else s.distributed := by
  unfold payoutIfEligible
  split <;> rename_i hrec
  · split <;> rename_i hcap
    · rw [if_pos ⟨hrec, hcap⟩]
      try rfl
    · rw [if_neg (fun hc => hcap hc.2)]
      try rfl
  · rw [if_neg (fun hc => hrec hc.1)]
    try rfl

theorem payoutIfEligible_exhausted (s : LedgerState) (sub : Submission)
    (hrec : sub.hasRecyclables = true)
    (hcap : s.capacity - s.distributed < s.unitReward) :
    payoutIfEligible s sub = (true, s) := by
  unfold payoutIfEligible
  rw [hrec]
  simp only [if_true]
  rw [if_neg (by omega)]

theorem getSub_lt {s : LedgerState} {id : Nat} {sub : Submission}
    (h : getSub s id = some sub) : id < s.submissions.length := by
  unfold getSub at h
  exact (List.getElem?_eq_some.mp h).1

theorem create_ok_inv {s s' : LedgerState} {inp : CreateInput} {id : Nat}
    (h : create s inp = .ok (id, s')) :
    id = submissionCount s ∧
      s' = { s with submissions :=
        s.submissions ++ [mkSub (submissionCount s) inp] } := by
  unfold create at h
  by_cases h1 : (inp.beforeRef = "" ∨ inp.afterRef = "")
  · rw [if_pos h1] at h
    exact absurd h (by simp)
  · rw [if_neg h1] at h
    by_cases h2 : (s.feeEnabled = true ∧ ¬ inp.feeSupplied = true)
    · rw [if_pos h2] at h
      exact absurd h (by simp)
    · rw [if_neg h2] at h
      dsimp only at h
      simp only [Except.ok.injEq, Prod.mk.injEq] at h
      exact ⟨h.1.symm, h.2.symm⟩

theorem create_ok (s : LedgerState) (inp : CreateInput)
    (h1 : ¬ (inp.beforeRef = "" ∨ inp.afterRef = ""))
    (h2 : ¬ (s.feeEnabled = true ∧ ¬ inp.feeSupplied = true)) :
    create s inp = .ok (submissionCount s,
      { s with submissions := s.submissions ++ [mkSub (submissionCount s) inp] }) := by
  unfold create
  rw [if_neg h1, if_neg h2]

theorem create_error_state {s : LedgerState} {inp : CreateInput} {e : Err}
    (h : create s inp = .error e) :
    e = Err.InvalidEvidence ∨ (e = Err.FeeRequired ∧ s.feeEnabled = true ∧
      inp.feeSupplied = false) := by
  unfold create at h
  by_cases h1 : (inp.beforeRef = "" ∨ inp.afterRef = "")
  · rw [if_pos h1] at h
    simp only [Except.error.injEq] at h
    exact Or.inl h.symm
  · rw [if_neg h1] at h
    by_cases h2 : (s.feeEnabled = true ∧ ¬ inp.feeSupplied = true)
    · rw [if_pos h2] at h
      simp only [Except.error.injEq] at h
      exact Or.inr ⟨h.symm, h2.1, by simpa using h2.2⟩
    · rw [if_neg h2] at h
      exact absurd h (by simp)

theorem attach_ok_inv {s s' : LedgerState} {id : Nat} {p r : String}
    (h : attachRecyclables s id p r = .ok s') :
    ∃ sub, getSub s id = some sub ∧ sub.status = Status.Pending ∧
      s' = { s with submissions :=
        s.submissions.set id (withRecyclables sub p r) } := by
  unfold attachRecyclables at h
  cases hg : getSub s id with
  | none => rw [hg] at h; exact absurd h (by simp)
  | some sub =>
    rw [hg] at h
    dsimp only at h
    by_cases hp : sub.status = Status.Pending
    · rw [if_neg (by simp [hp])] at h
      try dsimp only at h
      simp only [Except.ok.injEq] at h
      exact ⟨sub, rfl, hp, h.symm⟩
    · rw [if_pos (by simp [hp])] at h
      exact absurd h (by simp)

theorem approve_pending_eq {s : LedgerState} {id actor : Nat} {sub : Submission}
    (hv : canVerify s actor = true) (hg : getSub s id = some sub)
    (hp : sub.status = Status.Pending) :
    approve s id actor = .ok ((payoutIfEligible (creditOnApproval s sub) sub).1,
      { (payoutIfEligible (creditOnApproval s sub) sub).2 with
        submissions := (payoutIfEligible (creditOnApproval s sub) sub).2.submissions.set id
          (approvedSub sub) }) := by
  unfold approve
  rw [if_neg (by simp [hv])]
  rw [hg]
  dsimp only
  rw [if_neg (by simp [hp])]

theorem approve_not_pending {s : LedgerState} {id actor : Nat} {sub : Submission}
    (hv : canVerify s actor = true) (hg : getSub s id = some sub)
    (hp : sub.status ≠ Status.Pending) :
    approve s id actor = .error Err.InvalidState := by
  unfold approve
  rw [if_neg (by simp [hv])]
  rw [hg]
  dsimp only
  rw [if_pos (by simp [hp])]

theorem reject_not_pending {s : LedgerState} {id actor : Nat} {sub : Submission}
    (hv : canVerify s actor = true) (hg : getSub s id = some sub)
    (hp : sub.status ≠ Status.Pending) :
    reject s id actor = .error Err.InvalidState := by
  unfold reject
  rw [if_neg (by simp [hv])]
  rw [hg]
  dsimp only
  rw [if_pos (by simp [hp])]

theorem approve_ok_inv {s s' : LedgerState} {id actor : Nat} {b : Bool}
    (h : approve s id actor = .ok (b, s')) :
    canVerify s actor = true ∧
      ∃ sub, getSub s id = some sub ∧ sub.status = Status.Pending ∧
        s'.submissions = s.submissions.set id (approvedSub sub) ∧
        s'.roles = s.roles ∧ s'.capacity = s.capacity ∧
        s'.unitReward = s.unitReward ∧ s'.feeEnabled = s.feeEnabled ∧
        s'.distributed =
          (if sub.hasRecyclables = true ∧ s.unitReward ≤ s.capacity - s.distributed
           then s.distributed + s.unitReward else s.distributed) ∧
        s'.ledger = (payoutIfEligible (creditOnApproval s sub) sub).2.ledger := by
  by_cases hv : canVerify s actor = true
  · refine ⟨hv, ?_⟩
    cases hg : getSub s id with
    | none =>
      unfold approve at h
      rw [if_neg (by simp [hv]), hg] at h
      exact absurd h (by simp)
    | some sub =>
      by_cases hp : sub.status = Status.Pending
      · rw [approve_pending_eq hv hg hp] at h
        simp only [Except.ok.injEq, Prod.mk.injEq] at h
        refine ⟨sub, rfl, hp, ?_, ?_, ?_, ?_, ?_, ?_, ?_⟩ <;> rw [← h.2]
        · rw [payoutIfEligible_submissions, creditOnApproval_submissions]
        · rw [payoutIfEligible_roles, creditOnApproval_roles]
        · rw [payoutIfEligible_capacity, creditOnApproval_capacity]
        · rw [payoutIfEligible_unitReward, creditOnApproval_unitReward]
        · rw [payoutIfEligible_feeEnabled, creditOnApproval_feeEnabled]
        · rw [payoutIfEligible_distributed, creditOnApproval_distributed,
            creditOnApproval_capacity, creditOnApproval_unitReward]
      · rw [approve_not_pending hv hg hp] at h
        exact absurd h (by simp)
  · unfold approve at h
    rw [if_pos (by simpa using hv)] at h
    exact absurd h (by simp)

theorem reject_ok_inv {s s' : LedgerState} {id actor : Nat}
    (h : reject s id actor = .ok s') :
    canVerify s actor = true ∧
      ∃ sub, getSub s id = some sub ∧ sub.status = Status.Pending ∧
        s' = { s with submissions :=
          s.submissions.set id (rejectedSub sub) } := by
  by_cases hv : canVerify s actor = true
  · refine ⟨hv, ?_⟩
    unfold reject at h
    rw [if_neg (by simp [hv])] at h
    cases hg : getSub s id with
    | none => rw [hg] at h; exact absurd h (by simp)
    | some sub =>
      rw [hg] at h
      try dsimp only at h
      by_cases hp : sub.status = Status.Pending
      · rw [if_neg (by simp [hp])] at h
        try dsimp only at h
        simp only [Except.ok.injEq] at h
        exact ⟨sub, rfl, hp, h.symm⟩
      · rw [if_pos (by simp [hp])] at h
        exact absurd h (by simp)
  · unfold reject at h
    rw [if_pos (by simpa using hv)] at h
    exact absurd h (by simp)

theorem claim_ok_inv {s s' : LedgerState} {acct amt : Nat}
    (h : claimRewards s acct = .ok (amt, s')) :
    amt = ledgerTotal (s.ledger acct) ∧ amt ≠ 0 ∧
      s' = { s with ledger := fun a => if a = acct then emptyEntry else s.ledger a } := by
  unfold claimRewards at h
  dsimp only at h
  split_ifs at h with h0
  exact ⟨(congrArg Prod.fst (Except.ok.inj h)).symm,
    fun he => h0 ((congrArg Prod.fst (Except.ok.inj h)).trans he),
    (congrArg Prod.snd (Except.ok.inj h)).symm⟩

theorem sync_ok_inv {s s' : LedgerState} {cap actor : Nat}
    (h : syncReserve s cap actor = .ok s') :
    s.roles Role.DefaultAdmin actor = true ∧
      s' = { s with capacity := max cap s.distributed } := by
  unfold syncReserve at h
  by_cases hr : s.roles Role.DefaultAdmin actor = true
  · rw [if_neg (by simp [hr])] at h
    simp only [Except.ok.injEq] at h
    exact ⟨hr, h.symm⟩
  · rw [if_pos (by simpa using hr)] at h
    exact absurd h (by simp)

theorem step_status_from_pending {s s' : LedgerState} (hstep : Step s s')
    {i : Nat} {sub sub' : Submission}
    (h1 : getSub s i = some sub) (h2 : getSub s' i = some sub')
    (hne : sub'.status ≠ sub.status) : sub.status = Status.Pending := by
  cases hstep with
  | createS h =>
    obtain ⟨-, hs⟩ := create_ok_inv h
    have hlt := getSub_lt h1
    subst hs
    unfold getSub at h1 h2
    dsimp only at h2
    rw [List.getElem?_append, if_pos hlt, h1] at h2
    exact absurd (congrArg Submission.status (Option.some.inj h2)).symm hne
  | attachS h =>
    rename_i id p r
    obtain ⟨sub₀, hg, hp, hs⟩ := attach_ok_inv h
    subst hs
    unfold getSub at h1 h2 hg
    dsimp only at h2
    rw [List.getElem?_set] at h2
    by_cases hi : id = i
    · subst hi
      rw [h1] at hg
      rw [Option.some.inj hg]
      exact hp
    · rw [if_neg hi, h1] at h2
      exact absurd (congrArg Submission.status (Option.some.inj h2)).symm hne
  | approveS h =>
    rename_i id actor b
    obtain ⟨hv, sub₀, hg, hp, hsubs, -, -, -, -, -, -⟩ := approve_ok_inv h
    unfold getSub at h1 h2 hg
    rw [hsubs, List.getElem?_set] at h2
    by_cases hi : id = i
    · subst hi
      rw [h1] at hg
      rw [Option.some.inj hg]
      exact hp
    · rw [if_neg hi, h1] at h2
      exact absurd (congrArg Submission.status (Option.some.inj h2)).symm hne
  | rejectS h =>
    rename_i id actor
    obtain ⟨hv, sub₀, hg, hp, hs⟩ := reject_ok_inv h
    subst hs
    unfold getSub at h1 h2 hg
    dsimp only at h2
    rw [List.getElem?_set] at h2
    by_cases hi : id = i
    · subst hi
      rw [h1] at hg
      rw [Option.some.inj hg]
      exact hp
    · rw [if_neg hi, h1] at h2
      exact absurd (congrArg Submission.status (Option.some.inj h2)).symm hne
  | claimS h =>
    obtain ⟨-, -, hs⟩ := claim_ok_inv h
    subst hs
    unfold getSub at h1 h2
    dsimp only at h2
    rw [h1] at h2
    exact absurd (congrArg Submission.status (Option.some.inj h2)).symm hne
  | syncS h =>
    obtain ⟨-, hs⟩ := sync_ok_inv h
    subst hs
    unfold getSub at h1 h2
    dsimp only at h2
    rw [h1] at h2
    exact absurd (congrArg Submission.status (Option.some.inj h2)).symm hne

theorem step_reserve_inv {s s' : LedgerState} (hstep : Step s s')
    (hinv : s.distributed ≤ s.capacity) :
    s'.distributed ≤ s'.capacity := by
  cases hstep with
  | createS h =>
    obtain ⟨-, hs⟩ := create_ok_inv h
    subst hs
    exact hinv
  | attachS h =>
    obtain ⟨sub₀, -, -, hs⟩ := attach_ok_inv h
    subst hs
    exact hinv
  | approveS h =>
    obtain ⟨-, sub₀, -, -, -, -, hc, -, -, hd, -⟩ := approve_ok_inv h
    rw [hc, hd]
    split_ifs with hcond
    · omega
    · exact hinv
  | rejectS h =>
    obtain ⟨-, sub₀, -, -, hs⟩ := reject_ok_inv h
    subst hs
    exact hinv
  | claimS h =>
    obtain ⟨-, -, hs⟩ := claim_ok_inv h
    subst hs
    exact hinv
  | syncS h =>
    obtain ⟨-, hs⟩ := sync_ok_inv h
    subst hs
    exact le_max_right _ _

/-! ## Claim theorems. -/

/-- C3: for every approved-submission count n ≥ 1 the leveling rule maps
n to the documented name and tier — counts 1-3 give Newbie with tier =
count, 4-6 Pro, 7-9 Hero, 10 or more Guardian with the tier capped at
10; in particular level(3)=Newbie/3, level(4)=Pro/4, level(9)=Hero/9,
level(10)=Guardian/10 and level(25)=Guardian/10. -/
theorem c3_leveling_rule :
    (∀ n : Int, 1 ≤ n →
      ((n ≤ 3 → getLevelName n = LevelName.Newbie) ∧
       (4 ≤ n → n ≤ 6 → getLevelName n = LevelName.Pro) ∧
       (7 ≤ n → n ≤ 9 → getLevelName n = LevelName.Hero) ∧
       (10 ≤ n → getLevelName n = LevelName.Guardian))) ∧
    (∀ n : Nat, 1 ≤ n →
      ((n ≤ 10 → levelTier n = n) ∧ (10 ≤ n → levelTier n = 10))) ∧
    (getLevelName 3 = LevelName.Newbie ∧ levelTier 3 = 3) ∧
    (getLevelName 4 = LevelName.Pro ∧ levelTier 4 = 4) ∧
    (getLevelName 9 = LevelName.Hero ∧ levelTier 9 = 9) ∧
    (getLevelName 10 = LevelName.Guardian ∧ levelTier 10 = 10) ∧
    (getLevelName 25 = LevelName.Guardian ∧ levelTier 25 = 10) := by
  refine ⟨?_, ?_, ?_, ?_, ?_, ?_, ?_⟩
  · intro n h1
    refine ⟨?_, ?_, ?_, ?_⟩ <;> intros <;> unfold getLevelName <;>
      split_ifs <;> first | rfl | omega
  · intro n h1
    unfold levelTier
    omega
  all_goals exact ⟨by decide, by decide⟩

/-- Witness for C3 at the concrete count 2. -/
theorem c3_leveling_rule_witness :
    getLevelName 2 = LevelName.Newbie ∧ levelTier 2 = 2 :=
  ⟨(c3_leveling_rule.1 2 (by decide)).1 (by decide),
   (c3_leveling_rule.2.1 2 (by decide)).1 (by decide)⟩

/-- C9: the leveling helpers are total over all integers and silently
default at the undefined lower edge — for every count ≤ 0, getLevelName
returns Newbie (its fallback branch) and getImpactValueRange returns
"0". -/
theorem c9_lower_edge_fallback (level : Int) (h : level ≤ 0) :
    getLevelName level = LevelName.Newbie ∧ getImpactValueRange level = "0" := by
  unfold getLevelName getImpactValueRange
  constructor <;> split_ifs <;> first | rfl | omega

/-- Witness for C9 at count 0 (a user with no approved submissions). -/
theorem c9_lower_edge_fallback_witness :
    getLevelName 0 = LevelName.Newbie ∧ getImpactValueRange 0 = "0" :=
  c9_lower_edge_fallback 0 (by decide)

/-- C10: the impact-product upload interface validates before any side
effect — uploadImpactProductImage errors (uploading nothing: success is
the only path that hands the file to the uploader) when the level is
outside [1,10] or the MIME type is neither image/png nor image/gif, and
batchUploadImpactProducts errors before uploading anything unless
exactly 10 image files are provided. -/
theorem c10_upload_validation :
    (∀ (f : UFile) (l : Int), l < 1 ∨ 10 < l →
        uploadImpactProductImage f l = .error "Level must be between 1 and 10") ∧
    (∀ (f : UFile) (l : Int), ¬ (f.mime = "image/png" ∨ f.mime = "image/gif") →
        ∃ msg, uploadImpactProductImage f l = .error msg) ∧
    (∀ (f r : UFile) (l : Int), uploadImpactProductImage f l = .ok r →
        (1 ≤ l ∧ l ≤ 10) ∧ (f.mime = "image/png" ∨ f.mime = "image/gif") ∧ r = f) ∧
    (∀ (imgs : List UFile) (anim : Option UFile), imgs.length ≠ 10 →
        batchUploadImpactProducts imgs anim =
          .error "Must provide exactly 10 image files (one for each level)") := by
  refine ⟨?_, ?_, ?_, ?_⟩
  · intro f l h
    unfold uploadImpactProductImage
    rw [if_pos h]
  · intro f l h
    by_cases h1 : l < 1 ∨ 10 < l
    · exact ⟨"Level must be between 1 and 10",
        by unfold uploadImpactProductImage; rw [if_pos h1]⟩
    · refine ⟨"File must be PNG or GIF", ?_⟩
      unfold uploadImpactProductImage
      rw [if_neg h1, if_pos (by simpa [validImageTypes] using h)]
  · intro f r l h
    unfold uploadImpactProductImage at h
    by_cases h1 : l < 1 ∨ 10 < l
    · rw [if_pos h1] at h
      exact absurd h (by simp)
    · rw [if_neg h1] at h
      by_cases h2 : validImageTypes.contains f.mime = true
      · rw [if_neg (by simpa using h2)] at h
        exact ⟨by omega, by simpa [validImageTypes] using h2,
          (Except.ok.inj h).symm⟩
      · rw [if_pos (by simpa using h2)] at h
        exact absurd h (by simp)
  · intro imgs anim h
    unfold batchUploadImpactProducts
    rw [if_pos h]

/-- Witness for C10 at concrete invalid inputs. -/
theorem c10_upload_validation_witness :
    uploadImpactProductImage { mime := "image/png" } 11 =
        .error "Level must be between 1 and 10" ∧
    (∃ msg, uploadImpactProductImage { mime := "text/plain" } 5 = .error msg) ∧
    batchUploadImpactProducts [] none =
        .error "Must provide exactly 10 image files (one for each level)" :=
  ⟨c10_upload_validation.1 { mime := "image/png" } 11 (by decide),
   c10_upload_validation.2.1 { mime := "text/plain" } 5 (by decide),
   c10_upload_validation.2.2.2 [] none (by decide)⟩

/-- C8: a disabled fee never blocks creation — submitCleanup attaches no
payment value when the fee argument is absent or zero, the fee read
surface reports (0, disabled), FeeRequired can only arise with the fee
enabled and not supplied, and with the fee disabled a well-formed
creation succeeds. -/
theorem c8_fee_disabled :
    (∀ fee : Option Nat, fee = none ∨ fee = some 0 →
        submitCleanupValue fee = none) ∧
    getSubmissionFee = (0, false) ∧
    (∀ (s : LedgerState) (inp : CreateInput),
        create s inp = .error Err.FeeRequired →
        s.feeEnabled = true ∧ inp.feeSupplied = false) ∧
    (∀ (s : LedgerState) (inp : CreateInput) (fee : Option Nat),
        s.feeEnabled = false → inp.beforeRef ≠ "" → inp.afterRef ≠ "" →
        ∃ s', submitCleanup s inp fee = .ok (submissionCount s, s')) := by
  refine ⟨?_, rfl, ?_, ?_⟩
  · rintro fee (rfl | rfl) <;> rfl
  · intro s inp h
    rcases create_error_state h with h1 | ⟨-, h2, h3⟩
    · exact absurd h1 (by decide)
    · exact ⟨h2, h3⟩
  · intro s inp fee hfe h1 h2
    refine ⟨{ s with submissions := s.submissions ++
      [mkSub (submissionCount s)
        { inp with feeSupplied := (submitCleanupValue fee).isSome }] }, ?_⟩
    unfold submitCleanup
    rw [create_ok s _ (by simp [h1, h2]) (by simp [hfe])]

/-- Witness for C8 at a concrete disabled-fee creation. -/
theorem c8_fee_disabled_witness :
    submitCleanupValue none = none ∧
    (∃ s', submitCleanup demoState (eligibleInput 2) none =
      .ok (submissionCount demoState, s')) :=
  ⟨c8_fee_disabled.1 none (Or.inl rfl),
   c8_fee_disabled.2.2.2 demoState (eligibleInput 2) none rfl
     (by decide) (by decide)⟩

/-- C1: Approved and Rejected are terminal — an authorized approve or
reject on a non-Pending submission fails InvalidState and, errors
carrying no state, re-applies no effects; across every committed
operation a submission's status changes only out of Pending (so it moves
Pending→Approved or Pending→Rejected, each at most once), and a
non-Pending status is never changed by any operation. -/
theorem c1_terminal_status :
    (∀ (s : LedgerState) (id actor : Nat) (sub : Submission),
        getSub s id = some sub → sub.status ≠ Status.Pending →
        canVerify s actor = true →
        approve s id actor = .error Err.InvalidState ∧
        reject s id actor = .error Err.InvalidState) ∧
    (∀ (s s' : LedgerState), Step s s' →
        ∀ (id : Nat) (sub sub' : Submission),
          getSub s id = some sub → getSub s' id = some sub' →
          sub'.status ≠ sub.status → sub.status = Status.Pending) ∧
    (∀ (s s' : LedgerState), Step s s' →
        ∀ (id : Nat) (sub sub' : Submission),
          getSub s id = some sub → getSub s' id = some sub' →
          sub.status ≠ Status.Pending → sub'.status = sub.status) := by
  refine ⟨?_, ?_, ?_⟩
  · intro s id actor sub hg hnp hv
    exact ⟨approve_not_pending hv hg hnp, reject_not_pending hv hg hnp⟩
  · intro s s' hstep id sub sub' h1 h2 hne
    exact step_status_from_pending hstep h1 h2 hne
  · intro s s' hstep id sub sub' h1 h2 hnp
    by_cases hch : sub'.status = sub.status
    · exact hch
    · exact absurd (step_status_from_pending hstep h1 h2 hch) hnp

/-- Witness for C1: in the concrete state reached by approving
submission 0, a second approve and a reject both fail InvalidState, and
the status change that did happen started from Pending. -/
theorem c1_terminal_status_witness :
    (approve demoApproved 0 9 = .error Err.InvalidState ∧
     reject demoApproved 0 9 = .error Err.InvalidState) ∧
    demoSub.status = Status.Pending :=
  ⟨c1_terminal_status.1 demoApproved 0 9 (approvedSub demoSub) rfl
      (by decide) (by decide),
   c1_terminal_status.2.1 demoState demoApproved
      (Step.approveS (show approve demoState 0 9 = .ok (false, demoApproved)
        from rfl))
      0 demoSub (approvedSub demoSub) rfl rfl (by decide)⟩

/-- C2: two approve transactions on the same Pending submission,
serialized in either order as atomic transactions, give exactly one
success and one InvalidState failure, and the submitter's base-impact
ledger category afterwards holds exactly one base credit. -/
theorem c2_exactly_once (s : LedgerState) (id a1 a2 : Nat) (sub : Submission)
    (hg : getSub s id = some sub) (hp : sub.status = Status.Pending)
    (hr : sub.rewarded = false)
    (h1 : canVerify s a1 = true) (h2 : canVerify s a2 = true) :
    ∃ (b : Bool) (s' : LedgerState),
      approve s id a1 = .ok (b, s') ∧
      approve s' id a2 = .error Err.InvalidState ∧
      (s'.ledger sub.submitter).baseImpact
        = (s.ledger sub.submitter).baseImpact + baseReward := by
  have hlt := getSub_lt hg
  obtain ⟨b, s', heq⟩ : ∃ b s', approve s id a1 = .ok (b, s') :=
    ⟨_, _, approve_pending_eq h1 hg hp⟩
  obtain ⟨-, sub₀, hg₀, -, hsubs, hroles, -, -, -, -, hled⟩ := approve_ok_inv heq
  have hsub₀ : sub₀ = sub := Option.some.inj (hg₀.symm.trans hg)
  subst hsub₀
  refine ⟨b, s', heq, ?_, ?_⟩
  · have hv2 : canVerify s' a2 = true := by
      unfold canVerify at h2 ⊢
      rw [hroles]
      exact h2
    have hgs : getSub s' id = some (approvedSub sub₀) := by
      unfold getSub
      rw [hsubs]
      exact List.getElem?_set_self hlt
    exact approve_not_pending hv2 hgs (by simp [approvedSub])
  · rw [hled, payoutIfEligible_baseImpact,
      creditOnApproval_baseImpact _ _ _ hr, if_pos rfl]

/-- Witness for C2 on the concrete one-submission state. -/
theorem c2_exactly_once_witness :
    ∃ (b : Bool) (s' : LedgerState),
      approve demoState 0 9 = .ok (b, s') ∧
      approve s' 0 9 = .error Err.InvalidState ∧
      (s'.ledger demoSub.submitter).baseImpact
        = (demoState.ledger demoSub.submitter).baseImpact + baseReward :=
  c2_exactly_once demoState 0 9 9 demoSub rfl rfl rfl (by decide) (by decide)

theorem createRun_ids (inps : List CreateInput) :
    ∀ s : LedgerState, (createRun s inps).1 =
      List.range' (submissionCount s) (createRun s inps).1.length := by
  induction inps with
  | nil => intro s; rfl
  | cons inp rest ih =>
    intro s
    simp only [createRun]
    cases hc : create s inp with
    | error e =>
      dsimp only
      exact ih s
    | ok p =>
      obtain ⟨id, s'⟩ := p
      obtain ⟨hid, hs⟩ := create_ok_inv hc
      have hcount : submissionCount s' = submissionCount s + 1 := by
        rw [hs]
        unfold submissionCount
        simp
      dsimp only
      rw [List.length_cons, List.range'_succ, hid]
      have htail := ih s'
      rw [hcount] at htail
      rw [← htail]

/-- C4: assigned submission ids are the counter values — a successful
create returns the current counter and bumps it by one, the client
wrapper submitCleanup returns the pre-transaction submissionCount as the
new id, and over any sequence of create calls from a fresh deployment
the successful ids are exactly 0, 1, 2, … (unique and strictly
increasing starting at 0). -/
theorem c4_monotonic_ids :
    (∀ (s s' : LedgerState) (inp : CreateInput) (id : Nat),
        create s inp = .ok (id, s') →
        id = submissionCount s ∧ submissionCount s' = submissionCount s + 1) ∧
    (∀ (s s' : LedgerState) (inp : CreateInput) (fee : Option Nat) (id : Nat),
        submitCleanup s inp fee = .ok (id, s') → id = submissionCount s) ∧
    (∀ (cap unit v : Nat) (inps : List CreateInput),
        (createRun (mkInit cap unit v) inps).1 =
          List.range (createRun (mkInit cap unit v) inps).1.length ∧
        List.Pairwise (· < ·) ((createRun (mkInit cap unit v) inps).1)) := by
  refine ⟨?_, ?_, ?_⟩
  · intro s s' inp id h
    obtain ⟨hid, hs⟩ := create_ok_inv h
    refine ⟨hid, ?_⟩
    rw [hs]
    unfold submissionCount
    simp
  · intro s s' inp fee id h
    unfold submitCleanup at h
    cases hc : create s { inp with feeSupplied := (submitCleanupValue fee).isSome } with
    | error e => rw [hc] at h; exact absurd h (by simp)
    | ok p =>
      rw [hc] at h
      exact (congrArg Prod.fst (Except.ok.inj h)).symm
  · intro cap unit v inps
    have h := createRun_ids inps (mkInit cap unit v)
    have h0 : submissionCount (mkInit cap unit v) = 0 := rfl
    rw [h0] at h
    rw [← List.range_eq_range'] at h
    refine ⟨h, ?_⟩
    rw [h]
    exact List.pairwise_lt_range _

/-- Witness for C4 at a concrete create and a concrete input batch. -/
theorem c4_monotonic_ids_witness :
    (1 = submissionCount demoState ∧
     submissionCount demoCreated = submissionCount demoState + 1) ∧
    ((createRun (mkInit 5000 5 9) demoInputs).1 =
       List.range (createRun (mkInit 5000 5 9) demoInputs).1.length ∧
     List.Pairwise (· < ·) ((createRun (mkInit 5000 5 9) demoInputs).1)) :=
  ⟨c4_monotonic_ids.1 demoState demoCreated (eligibleInput 2) 1 rfl,
   c4_monotonic_ids.2.2 5000 5 9 demoInputs⟩

/-- C6 counterexample: account 1 owns three Approved submissions, whose
spec tier is 3, yet the level read surface getUserLevel returns the
constant 0 — the read is not computed from the approved count. -/
theorem c6_counterexample :
    approvedCount threeApprovedState 1 = 3 ∧
    levelTier (approvedCount threeApprovedState 1) = 3 ∧
    getUserLevel 1 = 0 ∧
    getUserLevel 1 ≠ levelTier (approvedCount threeApprovedState 1) := by
  refine ⟨by decide, by decide, rfl, by decide⟩

/-- C6 (amended): the frontend level read surface is an MVP stub —
getUserLevel returns 0 for every account, differing from the tier the
leveling rule assigns whenever the account has at least one approved
submission, and getCleanupDetails reports a fixed per-submission level
of 1 for an Approved submission and 0 otherwise. -/
theorem c6_level_read_stub :
    (∀ a : Nat, getUserLevel a = 0) ∧
    (∀ (s : LedgerState) (a : Nat), 1 ≤ approvedCount s a →
        getUserLevel a ≠ levelTier (approvedCount s a)) ∧
    cleanupDetailsLevel Status.Approved = 1 ∧
    cleanupDetailsLevel Status.Pending = 0 ∧
    cleanupDetailsLevel Status.Rejected = 0 := by
  refine ⟨fun a => rfl, ?_, rfl, rfl, rfl⟩
  intro s a h
  unfold getUserLevel levelTier
  omega

/-- Witness for C6 (amended) on the three-approvals state. -/
theorem c6_level_read_stub_witness :
    getUserLevel 7 = 0 ∧
    getUserLevel 1 ≠ levelTier (approvedCount threeApprovedState 1) :=
  ⟨c6_level_read_stub.1 7,
   c6_level_read_stub.2.1 threeApprovedState 1 (by decide)⟩

/-- C7 counterexample: after the approval of submission 0 the submitter
has accrued 13 unclaimed units (base 10 + impact-report 3), yet the
claimable-rewards read returns 0, not the accrued total. -/
theorem c7_counterexample :
    ledgerTotal (demoApproved.ledger 1) = 13 ∧
    getClaimableRewards 1 = 0 ∧
    getClaimableRewards 1 ≠ ledgerTotal (demoApproved.ledger 1) :=
  ⟨by decide, rfl, by decide⟩

/-- C7 (amended): the claimable-rewards read surface is an MVP stub —
getClaimableRewards returns 0 for every account, and in particular does
not equal the ledger's accrued total whenever that total is nonzero. -/
theorem c7_claimable_read_stub :
    (∀ a : Nat, getClaimableRewards a = 0) ∧
    (∀ (s : LedgerState) (a : Nat), 0 < ledgerTotal (s.ledger a) →
        getClaimableRewards a ≠ ledgerTotal (s.ledger a)) := by
  refine ⟨fun a => rfl, ?_⟩
  intro s a h
  unfold getClaimableRewards
  omega

/-- Witness for C7 (amended) on the state after one approval. -/
theorem c7_claimable_read_stub_witness :
    getClaimableRewards 5 = 0 ∧
    getClaimableRewards 1 ≠ ledgerTotal (demoApproved.ledger 1) :=
  ⟨c7_claimable_read_stub.1 5,
   c7_claimable_read_stub.2 demoApproved 1 (by decide)⟩

theorem attach_pending_eq {s : LedgerState} {id : Nat} {sub : Submission}
    {p r : String} (hg : getSub s id = some sub)
    (hp : sub.status = Status.Pending) :
    attachRecyclables s id p r =
      .ok { s with submissions := s.submissions.set id (withRecyclables sub p r) } := by
  unfold attachRecyclables
  rw [hg]
  dsimp only
  rw [if_neg (by simp [hp])]

theorem approve_exhausted {s : LedgerState} {id actor : Nat} {sub : Submission}
    (hg : getSub s id = some sub) (hp : sub.status = Status.Pending)
    (hv : canVerify s actor = true) (hrec : sub.hasRecyclables = true)
    (hcap : s.capacity - s.distributed < s.unitReward) :
    ∃ s', approve s id actor = .ok (true, s') ∧
      getSub s' id = some (approvedSub sub) ∧
      (s'.ledger sub.submitter).recyclables
        = (s.ledger sub.submitter).recyclables ∧
      s'.distributed = s.distributed := by
  have heq := approve_pending_eq hv hg hp
  have hpay : payoutIfEligible (creditOnApproval s sub) sub =
      (true, creditOnApproval s sub) := by
    apply payoutIfEligible_exhausted _ _ hrec
    rw [creditOnApproval_capacity, creditOnApproval_distributed,
      creditOnApproval_unitReward]
    exact hcap
  rw [hpay] at heq
  refine ⟨_, heq, ?_, ?_, ?_⟩
  · unfold getSub
    dsimp only
    rw [creditOnApproval_submissions]
    exact List.getElem?_set_self (getSub_lt hg)
  · dsimp only
    rw [creditOnApproval_recyclables]
  · dsimp only
    rw [creditOnApproval_distributed]

theorem create_pending_eq (s : LedgerState) (inp : CreateInput)
    (h1 : ¬ (inp.beforeRef = "" ∨ inp.afterRef = ""))
    (h2 : ¬ (s.feeEnabled = true ∧ ¬ inp.feeSupplied = true)) :
    create s inp = .ok (submissionCount s, createdState s inp) :=
  create_ok s inp h1 h2

theorem attach_pending_eq2 {s : LedgerState} {id : Nat} {sub : Submission}
    {p r : String} (hg : getSub s id = some sub)
    (hp : sub.status = Status.Pending) :
    attachRecyclables s id p r = .ok (attachedState s id sub p r) :=
  attach_pending_eq hg hp

theorem getSub_createdState (s : LedgerState) (inp : CreateInput) :
    getSub (createdState s inp) (submissionCount s)
      = some (mkSub (submissionCount s) inp) := by
  unfold getSub createdState submissionCount
  dsimp only
  exact List.getElem?_concat_length _ _

theorem getSub_attachedState (s : LedgerState) (id : Nat) (sub : Submission)
    (p r : String) (h : id < s.submissions.length) :
    getSub (attachedState s id sub p r) id = some (withRecyclables sub p r) := by
  unfold getSub attachedState
  dsimp only
  exact List.getElem?_set_self h

theorem approveCycle_effect (s : LedgerState)
    (hcap : s.capacity = 5000) (hunit : s.unitReward = 5)
    (hfee : s.feeEnabled = false) (hv : canVerify s 9 = true) :
    (approveCycle 9 s).capacity = 5000 ∧
    (approveCycle 9 s).unitReward = 5 ∧
    (approveCycle 9 s).feeEnabled = false ∧
    canVerify (approveCycle 9 s) 9 = true ∧
    (approveCycle 9 s).distributed =
      (if 5 ≤ 5000 - s.distributed then s.distributed + 5 else s.distributed) := by
  unfold approveCycle
  rw [create_pending_eq s (eligibleInput 1) (by simp [eligibleInput]) (by simp [hfee])]
  dsimp only
  rw [attach_pending_eq2 (getSub_createdState s (eligibleInput 1)) (by simp [mkSub])]
  dsimp only
  have hlen : submissionCount s < (createdState s (eligibleInput 1)).submissions.length := by
    unfold createdState submissionCount
    simp
  have hg2 := getSub_attachedState (createdState s (eligibleInput 1))
    (submissionCount s) (mkSub (submissionCount s) (eligibleInput 1)) "photo" "receipt" hlen
  have hv2 : canVerify (attachedState (createdState s (eligibleInput 1))
      (submissionCount s) (mkSub (submissionCount s) (eligibleInput 1))
      "photo" "receipt") 9 = true := hv
  rw [approve_pending_eq hv2 hg2 (by simp [withRecyclables, mkSub])]
  dsimp only
  refine ⟨?_, ?_, ?_, ?_, ?_⟩
  · rw [payoutIfEligible_capacity, creditOnApproval_capacity]
    exact hcap
  · rw [payoutIfEligible_unitReward, creditOnApproval_unitReward]
    exact hunit
  · rw [payoutIfEligible_feeEnabled, creditOnApproval_feeEnabled]
    exact hfee
  · unfold canVerify at hv ⊢
    dsimp only
    rw [payoutIfEligible_roles, creditOnApproval_roles]
    exact hv
  · rw [payoutIfEligible_distributed, creditOnApproval_distributed,
      creditOnApproval_capacity, creditOnApproval_unitReward]
    have hd : (attachedState (createdState s (eligibleInput 1)) (submissionCount s)
        (mkSub (submissionCount s) (eligibleInput 1)) "photo" "receipt").distributed
        = s.distributed := rfl
    have hc : (attachedState (createdState s (eligibleInput 1)) (submissionCount s)
        (mkSub (submissionCount s) (eligibleInput 1)) "photo" "receipt").capacity
        = s.capacity := rfl
    have hu : (attachedState (createdState s (eligibleInput 1)) (submissionCount s)
        (mkSub (submissionCount s) (eligibleInput 1)) "photo" "receipt").unitReward
        = s.unitReward := rfl
    rw [hd, hc, hu, hcap, hunit]
    simp [withRecyclables]

theorem runCycles_inv (k : Nat) :
    (runCycles 9 (mkInit 5000 5 9) k).capacity = 5000 ∧
    (runCycles 9 (mkInit 5000 5 9) k).unitReward = 5 ∧
    (runCycles 9 (mkInit 5000 5 9) k).feeEnabled = false ∧
    canVerify (runCycles 9 (mkInit 5000 5 9) k) 9 = true ∧
    (k ≤ 1000 → (runCycles 9 (mkInit 5000 5 9) k).distributed = 5 * k) := by
  induction k with
  | zero => exact ⟨rfl, rfl, rfl, by decide, fun _ => rfl⟩
  | succ n ih =>
    obtain ⟨hc, hu, hf, hv, hd⟩ := ih
    obtain ⟨hc2, hu2, hf2, hv2, hd2⟩ := approveCycle_effect _ hc hu hf hv
    refine ⟨hc2, hu2, hf2, hv2, ?_⟩
    intro hk
    show (approveCycle 9 (runCycles 9 (mkInit 5000 5 9) n)).distributed = 5 * (n + 1)
    rw [hd2, hd (by omega)]
    have : 5 ≤ 5000 - 5 * n := by omega
    rw [if_pos this]
    omega

theorem exhausted_cycle (S : LedgerState) (hc : S.capacity = 5000)
    (hu : S.unitReward = 5) (hf : S.feeEnabled = false)
    (hv : canVerify S 9 = true) (hd : S.distributed = 5000) :
    ∃ (id : Nat) (s1 s2 s3 : LedgerState) (sub : Submission),
      create S (eligibleInput 1) = .ok (id, s1) ∧
      attachRecyclables s1 id "photo" "receipt" = .ok s2 ∧
      getSub s2 id = some sub ∧ sub.submitter = 1 ∧
      approve s2 id 9 = .ok (true, s3) ∧
      getSub s3 id = some (approvedSub sub) ∧
      (s3.ledger 1).recyclables = (s2.ledger 1).recyclables ∧
      s3.distributed = s2.distributed := by
  have hcr := create_pending_eq S (eligibleInput 1)
    (by simp [eligibleInput]) (by simp [hf])
  have hga := getSub_createdState S (eligibleInput 1)
  have hat : attachRecyclables (createdState S (eligibleInput 1))
      (submissionCount S) "photo" "receipt" =
      .ok (attachedState (createdState S (eligibleInput 1)) (submissionCount S)
        (mkSub (submissionCount S) (eligibleInput 1)) "photo" "receipt") :=
    attach_pending_eq2 hga (by simp [mkSub])
  have hlen : submissionCount S <
      (createdState S (eligibleInput 1)).submissions.length := by
    unfold createdState submissionCount
    simp
  have hg2 := getSub_attachedState (createdState S (eligibleInput 1))
    (submissionCount S) (mkSub (submissionCount S) (eligibleInput 1))
    "photo" "receipt" hlen
  have hv2 : canVerify (attachedState (createdState S (eligibleInput 1))
      (submissionCount S) (mkSub (submissionCount S) (eligibleInput 1))
      "photo" "receipt") 9 = true := hv
  have hcap2 : (attachedState (createdState S (eligibleInput 1))
        (submissionCount S) (mkSub (submissionCount S) (eligibleInput 1))
        "photo" "receipt").capacity -
      (attachedState (createdState S (eligibleInput 1))
        (submissionCount S) (mkSub (submissionCount S) (eligibleInput 1))
        "photo" "receipt").distributed <
      (attachedState (createdState S (eligibleInput 1))
        (submissionCount S) (mkSub (submissionCount S) (eligibleInput 1))
        "photo" "receipt").unitReward := by
    show S.capacity - S.distributed < S.unitReward
    rw [hc, hu, hd]
    omega
  obtain ⟨s3, happ, hg3, hled, hdist⟩ := approve_exhausted hg2
    (by simp [withRecyclables, mkSub]) hv2 (by simp [withRecyclables]) hcap2
  exact ⟨_, _, _, s3, _, hcr, hat, hg2,
    by simp [withRecyclables, mkSub, eligibleInput],
    happ, hg3, hled, hdist⟩

/-- C5: the recyclables reserve satisfies distributed ≤ capacity in
every state reachable from a fresh deployment; when the remaining
reserve is below unitReward, an eligible approval still finalizes the
submission as Approved but credits no recyclables reward and reports
exhaustion (the soft ReserveExhausted flag), never reverting; and with
capacity 5000 and unitReward 5, after 1000 eligible approvals
distributed = 5000 and the 1001st eligible approval gets no recyclables
credit. -/
theorem c5_capped_reserve :
    (∀ (cap unit v : Nat) (s : LedgerState),
        Relation.ReflTransGen Step (mkInit cap unit v) s →
        s.distributed ≤ s.capacity) ∧
    (∀ (s : LedgerState) (id actor : Nat) (sub : Submission),
        getSub s id = some sub → sub.status = Status.Pending →
        canVerify s actor = true → sub.hasRecyclables = true →
        s.capacity - s.distributed < s.unitReward →
        ∃ s', approve s id actor = .ok (true, s') ∧
          getSub s' id = some (approvedSub sub) ∧
          (s'.ledger sub.submitter).recyclables
            = (s.ledger sub.submitter).recyclables ∧
          s'.distributed = s.distributed) ∧
    ((runCycles 9 (mkInit 5000 5 9) 1000).distributed = 5000 ∧
     ∃ (id : Nat) (s1 s2 s3 : LedgerState) (sub : Submission),
       create (runCycles 9 (mkInit 5000 5 9) 1000) (eligibleInput 1) = .ok (id, s1) ∧
       attachRecyclables s1 id "photo" "receipt" = .ok s2 ∧
       getSub s2 id = some sub ∧ sub.submitter = 1 ∧
       approve s2 id 9 = .ok (true, s3) ∧
       getSub s3 id = some (approvedSub sub) ∧
       (s3.ledger 1).recyclables = (s2.ledger 1).recyclables ∧
       s3.distributed = s2.distributed) := by
  refine ⟨?_, ?_, ?_⟩
  · intro cap unit v s h
    induction h with
    | refl => exact Nat.zero_le _
    | tail hab hbc ih => exact step_reserve_inv hbc ih
  · intro s id actor sub hg hp hv hrec hcap
    exact approve_exhausted hg hp hv hrec hcap
  · obtain ⟨hc, hu, hf, hv, hd⟩ := runCycles_inv 1000
    have hd1000 : (runCycles 9 (mkInit 5000 5 9) 1000).distributed = 5000 :=
      hd (by omega)
    exact ⟨hd1000, exhausted_cycle _ hc hu hf hv hd1000⟩

/-- Witness for C5: the invariant at the fresh deployment, and a
concrete exhausted-reserve approval. -/
theorem c5_capped_reserve_witness :
    (mkInit 5 5 9).distributed ≤ (mkInit 5 5 9).capacity ∧
    (∃ s', approve exhaustedState 0 9 = .ok (true, s') ∧
      getSub s' 0 = some (approvedSub demoRecySub) ∧
      (s'.ledger demoRecySub.submitter).recyclables
        = (exhaustedState.ledger demoRecySub.submitter).recyclables ∧
      s'.distributed = exhaustedState.distributed) :=
  ⟨c5_capped_reserve.1 5 5 9 (mkInit 5 5 9) Relation.ReflTransGen.refl,
   c5_capped_reserve.2.1 exhaustedState 0 9 demoRecySub rfl rfl
     (by decide) rfl (by decide)⟩

end DeCleanup
